import Mathlib

/-!
Verification of the export/import pipeline of goatcounter (`export.go`).

The development shallowly embeds the code of `export.go`:

* the Row Codec (`ExportRow.Read` / `ExportRow.Hit` and the encoding loop of
  `Export.Run`) as executable Lean functions over `List String` rows;
* the Export Engine (`Export.Run`) as a deterministic function of the sequence
  of batch responses produced by the Record Store Adapter plus an environment
  describing the outcomes of the post-loop file operations;
* the Import Engine (`Import`) as a deterministic function of the parsed
  header and data lines.

External collaborators (the `zvalidate` validator, `zfloat` number lists,
`strconv`, `time` formatting, the gzip/CSV file stack and the database) are
modelled faithfully from their documented behaviour; machine numbers are
modelled as `Int`/`Nat`, and the `float64` screen-size entries are modelled on
their integral sublanguage (decimal strings without a fractional part), which
is the part the codec round trip exercises.
-/

namespace GC

/-! ### Characters and decimal numerals (models of `strconv`/`fmt`) -/
/-- The decimal digit character for `n < 10` (models `fmt`'s digit output). -/
def digitChar (n : Nat) : Char := Char.ofNat (48 + n)

/-- Numeric value of a digit character. -/
def dval (c : Char) : Nat := c.toNat - 48

/-- Accumulator loop of decimal formatting, fuelled (`fuel ≥ n` suffices). -/
def fmtNatAux : Nat → Nat → List Char
  | 0, _ => []
  | fuel + 1, n => if n = 0 then [] else fmtNatAux fuel (n / 10) ++ [digitChar (n % 10)]

/-- Decimal numeral of a natural number, as produced by Go `strconv`/`fmt`. -/
def fmtNatL (n : Nat) : List Char := if n = 0 then ['0'] else fmtNatAux n n

/-- Decimal numeral of an integer (Go `strconv.FormatInt`, `fmt %d`). -/
def fmtIntL (i : Int) : List Char :=
  if i < 0 then '-' :: fmtNatL i.natAbs else fmtNatL i.natAbs

/-- Parse an unsigned decimal numeral: all characters must be digits. -/
def parseNatL (l : List Char) : Option Nat :=
  if l ≠ [] ∧ l.all Char.isDigit then
    some (l.foldl (fun a c => a * 10 + dval c) 0)
  else none

/-- Parse an optionally signed decimal numeral (body of `strconv.ParseInt`). -/
def parseIntRaw (l : List Char) : Option Int :=
  match l with
  | [] => none
  | c :: rest =>
    if c = '-' then
      match parseNatL rest with
      | some n => some (-(n : Int))
      | none => none
    else if c = '+' then
      match parseNatL rest with
      | some n => some ((n : Int))
      | none => none
    else
      match parseNatL (c :: rest) with
      | some n => some ((n : Int))
      | none => none

/-- `strconv.ParseInt(s, 10, 64)`: signed decimal with the int64 range check. -/
def parseIntS (s : String) : Option Int :=
  match parseIntRaw s.data with
  | some i => if -(2 ^ 63) ≤ i ∧ i < 2 ^ 63 then some i else none
  | none => none

/-- Whitespace as trimmed by Go `strings.TrimSpace` (ASCII fragment). -/
def isWS (c : Char) : Bool := c = ' ' ∨ c = '\t' ∨ c = '\n' ∨ c = '\r'

/-- `strings.TrimSpace` on a character list. -/
def trimL (l : List Char) : List Char :=
  ((l.dropWhile isWS).reverse.dropWhile isWS).reverse

/-- Go `strings.ToLower` (character-wise). -/
def lowerStr (s : String) : String := String.mk (s.data.map Char.toLower)

/-- Go `strings.HasPrefix`. -/
def strHasPfx (p s : String) : Bool := p.data.isPrefixOf s.data

/-- Go string slicing `s[:1]` is a byte slice; for the ASCII version tags it
slices it is the one-character take. -/
def strTake1 (s : String) : String := String.mk (s.data.take 1)

/-! ### Comma-separated lists (models of `strings.Split` / `zfloat.Join`) -/
/-- Go `strings.Join(elems, ",")` on character lists. -/
def joinCommaL : List (List Char) → List Char
  | [] => []
  | [x] => x
  | x :: xs => x ++ ',' :: joinCommaL xs

/-- Go `strings.Split(s, ",")` on character lists. -/
def splitComma : List Char → List (List Char)
  | [] => [[]]
  | c :: rest =>
    if c = ',' then [] :: splitComma rest
    else
      match splitComma rest with
      | [] => [[c]]
      | x :: xs => (c :: x) :: xs

/-! ### Fixed-width two-digit fields and the RFC 3339 wire format

Models Go `time.Time.Format(time.RFC3339)` and `time.Parse(time.RFC3339, s)`
for times without fractional seconds (the export encoder never emits a
fractional second).  A `time.Time` value is embedded as its broken-down
components plus a zone offset in minutes. -/
/-- Two-digit zero-padded decimal field (`%02d` for values below 100). -/
def pad2 (n : Nat) : List Char := [digitChar (n / 10), digitChar (n % 10)]

/-- Four-digit zero-padded decimal field (`%04d` for values below 10000). -/
def pad4 (n : Nat) : List Char := pad2 (n / 100) ++ pad2 (n % 100)

/-- Read a two-digit decimal field. -/
def parse2 (c1 c2 : Char) : Option Nat :=
  if c1.isDigit ∧ c2.isDigit then some (dval c1 * 10 + dval c2) else none

/-- Broken-down time with zone offset in minutes: the embedding of `time.Time`
as far as `export.go` observes it. -/
structure GoTime where
  year : Nat
  month : Nat
  day : Nat
  hour : Nat
  minute : Nat
  second : Nat
  tzMin : Int
deriving DecidableEq, Repr

/-- The zero `time.Time` (January 1, year 1, UTC). -/
def zeroTime : GoTime := ⟨1, 1, 1, 0, 0, 0, 0⟩

/-- Leap-year rule used by Go's `time` package. -/
def leapYear (y : Nat) : Bool := y % 4 = 0 ∧ (y % 100 ≠ 0 ∨ y % 400 = 0)

/-- Days in a month, as validated by Go `time.Parse`. -/
def daysIn (month year : Nat) : Nat :=
  if month = 2 then (if leapYear year then 29 else 28)
  else if month = 4 ∨ month = 6 ∨ month = 9 ∨ month = 11 then 30
  else 31

/-- Zone suffix of `time.RFC3339`: `Z` for UTC, otherwise `±hh:mm`. -/
def fmtTZ (o : Int) : List Char :=
  if o = 0 then ['Z']
  else (if o < 0 then '-' else '+') :: (pad2 (o.natAbs / 60) ++ ':' :: pad2 (o.natAbs % 60))

/-- `time.Time.Format(time.RFC3339)`. -/
def fmtRFC3339 (t : GoTime) : List Char :=
  pad4 t.year ++ '-' :: (pad2 t.month ++ '-' :: (pad2 t.day ++ 'T' ::
    (pad2 t.hour ++ ':' :: (pad2 t.minute ++ ':' :: (pad2 t.second ++ fmtTZ t.tzMin)))))

/-- Range validation performed by Go `time.Parse` on the parsed components. -/
def validRangesB (t : GoTime) : Bool :=
  1 ≤ t.month ∧ t.month ≤ 12 ∧ 1 ≤ t.day ∧ t.day ≤ daysIn t.month t.year ∧
    t.hour ≤ 23 ∧ t.minute ≤ 59 ∧ t.second ≤ 59

/-- Parse the RFC 3339 zone suffix. -/
def parseTZ : List Char → Option Int
  | [z] => if z = 'Z' then some 0 else none
  | [sg, h1, h2, cl, m1, m2] =>
    if (sg = '+' ∨ sg = '-') ∧ cl = ':' then
      match parse2 h1 h2, parse2 m1 m2 with
      | some hh, some mm =>
        if hh ≤ 23 ∧ mm ≤ 59 then
          some (if sg = '-' then -((hh * 60 + mm : Nat) : Int) else ((hh * 60 + mm : Nat) : Int))
        else none
      | _, _ => none
    else none
  | _ => none

/-- `time.Parse(time.RFC3339, s)` (fractional seconds omitted: the encoder
never produces them).  Positional: four year digits, separators, two-digit
fields, then the zone suffix. -/
def parseRFC3339 (l : List Char) : Option GoTime :=
  match l with
  | y1 :: y2 :: y3 :: y4 :: sA :: mo1 :: mo2 :: sB :: d1 :: d2 :: sC :: h1 :: h2 ::
      sD :: mi1 :: mi2 :: sE :: se1 :: se2 :: tz =>
    if sA = '-' ∧ sB = '-' ∧ sC = 'T' ∧ sD = ':' ∧ sE = ':' then
      match parse2 y1 y2, parse2 y3 y4, parse2 mo1 mo2, parse2 d1 d2,
          parse2 h1 h2, parse2 mi1 mi2, parse2 se1 se2, parseTZ tz with
      | some yh, some yl, some mo, some d, some h, some mi, some se, some o =>
        let t : GoTime := ⟨yh * 100 + yl, mo, d, h, mi, se, o⟩
        if validRangesB t then some t else none
      | _, _, _, _, _, _, _, _ => none
    else none
  | _ => none

/-- Validity of a time under the wire format: what "canonical timestamp form"
means for the codec round trip. -/
def validTime (t : GoTime) : Prop :=
  t.year < 10000 ∧ 1 ≤ t.month ∧ t.month ≤ 12 ∧ 1 ≤ t.day ∧
    t.day ≤ daysIn t.month t.year ∧ t.hour ≤ 23 ∧ t.minute ≤ 59 ∧ t.second ≤ 59 ∧
    t.tzMin.natAbs ≤ 1439

instance (t : GoTime) : Decidable (validTime t) := by
  unfold validTime; infer_instance

/-! ### Data model: the event record (`Hit`)

Embedding of the fields of the `Hit` struct that `export.go` reads or writes.
`zint.Uint128` session identities are embedded as `Nat` (the Go zero value is
`0`); `zdb.Bool` as `Bool`; `float64` screen-size entries as `Int`. -/
structure Hit where
  id : Int
  site : Int
  path : String
  title : String
  event : Bool
  bot : Int
  session : Nat
  oldSession : Option Int
  firstVisit : Bool
  ref : String
  refScheme : Option String
  browser : String
  size : List Int
  location : String
  createdAt : GoTime
deriving DecidableEq, Repr

/-- `const ExportVersion = "1"`. -/
def ExportVersion : String := "1"

/-- The values of `RefSchemeHTTP`, `RefSchemeOther`, `RefSchemeGenerated` and
`RefSchemeCampaign`.  Modelled from the spec: the constants are declared
elsewhere in the repository ("referrer-scheme ... one of a fixed
enumeration"); goatcounter stores them as the four one-letter codes. -/
def refSchemes : List String := ["h", "o", "g", "c"]

/-- The `ExportRow` struct: the flat textual projection, fields in order. -/
structure ExportRow where
  path : String
  title : String
  event : String
  bot : String
  session : String
  firstVisit : String
  ref : String
  refScheme : String
  browser : String
  size : String
  location : String
  createdAt : String
deriving DecidableEq, Repr

/-- Faults produced when turning a CSV line into a `Hit`.  `arity` is the
field-count error of `ExportRow.Read`; `sizeParse` is the error returned by
`hit.Size.UnmarshalText` (the `strconv.ParseFloat` failure, carrying the
offending chunk); `fields` is the keyed error collection a
`zvalidate.Validator` returns from `ErrorOrNil`. -/
inductive RowErr where
  | arity (got want : Nat)
  | sizeParse (chunk : String)
  | fields (v : List (String × String))
deriving DecidableEq, Repr

/-- `ExportRow.Read`: reject on wrong field count, else assign positionally. -/
def readRow (line : List String) : Except RowErr ExportRow :=
  match line with
  | [p, t, e, b, s, fv, r, rs, br, sz, loc, ca] =>
    .ok ⟨p, t, e, b, s, fv, r, rs, br, sz, loc, ca⟩
  | _ => .error (.arity line.length 12)

/-! ### The `zvalidate` validator (external collaborator, modelled)

State is the ordered list of (key, message) pairs appended so far. -/
/-- Validator state. -/
abbrev VState := List (String × String)

def vAppend (v : VState) (key msg : String) : VState := v ++ [(key, msg)]

/-- `Validator.Required` on a string: fault when the trimmed value is empty. -/
def vRequired (v : VState) (key s : String) : VState :=
  if trimL s.data = [] then vAppend v key "must be set" else v

/-- `Validator.Boolean`. -/
def vBoolean (v : VState) (key s : String) : VState × Bool :=
  let ls := lowerStr s
  if ls = "" ∨ ls = "0" ∨ ls = "n" ∨ ls = "no" ∨ ls = "f" ∨ ls = "false" then (v, false)
  else if ls = "1" ∨ ls = "y" ∨ ls = "yes" ∨ ls = "t" ∨ ls = "true" then (v, true)
  else (vAppend v key "must be a boolean", false)

/-- `Validator.Integer` (`strconv.ParseInt`; 0 on failure plus a fault). -/
def vInteger (v : VState) (key s : String) : VState × Int :=
  match parseIntS s with
  | some i => (v, i)
  | none => (vAppend v key "must be a whole number", 0)

/-- `Validator.Date` with the RFC 3339 layout (zero time on failure). -/
def vDate (v : VState) (key s : String) : VState × GoTime :=
  match parseRFC3339 s.data with
  | some t => (v, t)
  | none => (vAppend v key "must be a date", zeroTime)

/-- `Validator.Include`. -/
def vInclude (v : VState) (key s : String) (opts : List String) : VState :=
  if opts.contains s then v else vAppend v key "must be one of the accepted values"

/-- `zfloat.Split(s, ",")` as called by `hit.Size.UnmarshalText`: trim the
whole string, return the empty list for an all-space string, else split on
commas and parse every trimmed chunk, failing on the first bad chunk. -/
def parseChunks : List (List Char) → Except String (List Int)
  | [] => .ok []
  | c :: cs =>
    match parseIntRaw (trimL c) with
    | some n => (parseChunks cs).map (fun ns => n :: ns)
    | none => .error (String.mk c)

def parseSizes (s : String) : Except String (List Int) :=
  let l := trimL s.data
  if l = [] then .ok [] else parseChunks (splitComma l)

/-- `zfloat.Join(hit.Size, ",")`. -/
def joinSizes (l : List Int) : String := String.mk (joinCommaL (l.map fmtIntL))

/-- `ExportRow.Hit`: build the record, run the validations in source order,
then: a non-empty Screen-size column short-circuits, returning whatever
`UnmarshalText` returned (its parse error, or no error at all — dropping the
collected validation faults); otherwise return `ErrorOrNil`. -/
def rowToHit (siteID : Int) (row : ExportRow) : Hit × Option RowErr :=
  let hit0 : Hit :=
    { id := 0, site := siteID, path := row.path, title := row.title, event := false,
      bot := 0, session := 0, oldSession := none, firstVisit := false, ref := row.ref,
      refScheme := none, browser := row.browser, size := [], location := row.location,
      createdAt := zeroTime }
  let v : VState := []
  let v := vRequired v "path" row.path
  let p1 := vBoolean v "event" row.event
  let p2 := vInteger p1.1 "bot" row.bot
  let p3 := vBoolean p2.1 "firstVisit" row.firstVisit
  let p4 := vDate p3.1 "createdAt" row.createdAt
  let hit1 : Hit :=
    { hit0 with
      event := p1.2
      bot := p2.2
      firstVisit := p3.2
      createdAt := p4.2 }
  let v := p4.1
  let vh : VState × Hit :=
    if row.refScheme ≠ "" then
      (vInclude v "refScheme" row.refScheme refSchemes,
        { hit1 with refScheme := some row.refScheme })
    else (v, hit1)
  if row.size ≠ "" then
    match parseSizes row.size with
    | .ok ns => ({ vh.2 with size := ns }, none)
    | .error m => (vh.2, some (.sizeParse m))
  else
    (vh.2, if vh.1 = [] then none else some (.fields vh.1))

instance {ε α : Type} [DecidableEq ε] [DecidableEq α] : DecidableEq (Except ε α) := fun a b =>
  match a, b with
  | Except.ok x, Except.ok y =>
    if h : x = y then isTrue (congrArg Except.ok h)
    else isFalse (fun he => h (Except.ok.inj he))
  | Except.error e, Except.error f =>
    if h : e = f then isTrue (congrArg Except.error h)
    else isFalse (fun he => h (Except.error.inj he))
  | Except.ok _, Except.error _ => isFalse (fun he => Except.noConfusion he)
  | Except.error _, Except.ok _ => isFalse (fun he => Except.noConfusion he)

/-- Decoding one data line during import: `ExportRow.Read` then
`ExportRow.Hit` (each fault is appended to the error group and skips the
line, so the two stages compose into one fallible step). -/
def decodeLine (siteID : Int) (line : List String) : Except RowErr Hit :=
  match readRow line with
  | .error e => .error e
  | .ok row =>
    match rowToHit siteID row with
    | (h, none) => .ok h
    | (_, some e) => .error e

/-- `fmt.Sprintf("%t", b)`. -/
def fmtBool (b : Bool) : String := if b then "true" else "false"

/-- Hex digit characters (lowercase), for the uuid rendering. -/
def hexChar (n : Nat) : Char := if n < 10 then digitChar n else Char.ofNat (87 + n)

/-- Fixed-width hexadecimal numeral, most significant digit first. -/
def hexPad : Nat → Nat → List Char
  | 0, _ => []
  | w + 1, n => hexPad w (n / 16) ++ [hexChar (n % 16)]

/-- `uuid.String()` of the 16 session-identity bytes (`hit.Session.Bytes()`
copied into a `uuid.UUID`): 32 lowercase hex digits in 8-4-4-4-12 groups. -/
def uuidStr (n : Nat) : String :=
  let h := hexPad 32 n
  String.mk (h.take 8 ++ '-' :: ((h.drop 8).take 4 ++ '-' :: ((h.drop 12).take 4 ++
    '-' :: ((h.drop 16).take 4 ++ '-' :: h.drop 20))))

/-- The row written for one hit by the export loop of `Export.Run`
(lines 125–146): legacy numeric sessions are emitted verbatim in decimal,
canonical 128-bit sessions in the uuid form; a `nil` referrer scheme becomes
the empty string. -/
def encodeHit (h : Hit) : List String :=
  let s := match h.oldSession with
    | some o => String.mk (fmtIntL o)
    | none => uuidStr h.session
  let rs := match h.refScheme with
    | some r => r
    | none => ""
  [h.path, h.title, fmtBool h.event, String.mk (fmtIntL h.bot), s, fmtBool h.firstVisit,
    h.ref, rs, h.browser, joinSizes h.size, h.location, String.mk (fmtRFC3339 h.createdAt)]

/-! ### The Export Engine (`Export.Run`)

The Record Store Adapter is an external collaborator (spec §6): one run of
`Export.Run` observes it only through the successive return values of
`hits.List`, so a run is a deterministic function of that response sequence.
A `Batch` is one response: the records, the read error, and whether the CSV
flush of this batch surfaces a writer error (`c.Error()` after `c.Flush()`).
An exhausted response list behaves as the adapter's end of data (an empty
batch). -/
structure Batch where
  hits : List Hit
  err : Option String
  flushErr : Option String
deriving DecidableEq, Repr

/-- The header row written before the loop (line 101–103), with the version
tag prefixed to the first column name. -/
def exportHeaderRow : List String :=
  [ExportVersion ++ "Path", "Title", "Event", "Bot", "Session", "FirstVisit", "Referrer",
    "Referrer scheme", "Browser", "Screen size", "Location", "Date"]

/-- Observable events of one export run, used for the temporal claims:
`read b` = the batch-`b` call of `hits.List` returns; `checkpoint b` = the
assignment `e.LastHitID = &last` for batch `b`; `writeRow b` = one `c.Write`
of a data row of batch `b`; `flush b` = the `c.Flush()` after batch `b`. -/
inductive Ev where
  | read (b : Nat)
  | checkpoint (b : Nat)
  | writeRow (b : Nat)
  | flush (b : Nat)
deriving DecidableEq, Repr

/-- Mutable state of the export loop: `e.LastHitID`, `*e.NumRows`, the rows
written so far, and the loop-carried `exportErr`. -/
structure ExpSt where
  lastHitID : Int
  numRows : Nat
  rows : List (List String)
  exportErr : Option String
deriving DecidableEq, Repr

/-- `newLastID` of one `hits.List` response: the identity of the last record
returned, or the unchanged checkpoint when the batch is empty.  Modelled from
the spec (§6 read contract; `Hits.List` itself is not part of `export.go`). -/
def batchLastID (hits : List Hit) (prev : Int) : Int :=
  match hits.getLast? with
  | some h => h.id
  | none => prev

/-- The `for { ... }` loop of `Export.Run` (lines 109–158): read a batch,
immediately advance the checkpoint, break on an empty batch or a read error
(in source order: the empty check runs first, but `exportErr` was already
assigned, so a failing empty read still leaves the error set), else count and
encode the rows, flush, and break on a flush error. -/
def expLoop : List Batch → Nat → ExpSt → ExpSt × List Ev
  | [], i, st => (st, [Ev.read i, Ev.checkpoint i])
  | b :: rest, i, st =>
    let st1 : ExpSt := { st with lastHitID := batchLastID b.hits st.lastHitID }
    if b.hits.isEmpty then
      ({ st1 with exportErr := b.err }, [Ev.read i, Ev.checkpoint i])
    else
      match b.err with
      | some m => ({ st1 with exportErr := some m }, [Ev.read i, Ev.checkpoint i])
      | none =>
        let st2 : ExpSt :=
          { st1 with
            numRows := st1.numRows + b.hits.length
            rows := st1.rows ++ b.hits.map encodeHit }
        let wr := b.hits.map (fun _ => Ev.writeRow i)
        match b.flushErr with
        | some m =>
          ({ st2 with exportErr := some m },
            Ev.read i :: Ev.checkpoint i :: (wr ++ [Ev.flush i]))
        | none =>
          let rec2 := expLoop rest (i + 1) st2
          (rec2.1, Ev.read i :: Ev.checkpoint i :: (wr ++ Ev.flush i :: rec2.2))

/-- Outcomes of the post-loop file operations (environment of one run):
whether `gzfp.Close()`, `fp.Sync()`, `fp.Stat()`, `fp.Close()` and
`zcrypto.HashFile` fail, the stat size in bytes, and the digest value. -/
structure ExpEnv where
  gzCloseErr : Option String
  syncErr : Option String
  statErr : Bool
  statSize : Nat
  closeErr : Option String
  hashErr : Option String
  hashVal : String
deriving DecidableEq, Repr

/-- Where a run ended: the fatal path of lines 160–174, an early return from
one of the post-loop steps (lines 176–205), or full success. -/
inductive ExpOutcome where
  | fatal (msg : String)
  | degradedGzClose
  | degradedSync
  | degradedFileClose
  | degradedDigest
  | success
deriving DecidableEq, Repr

/-- The single terminal `update exports set finished_at=..., num_rows=...,
size=..., hash=..., last_hit_id=...` of lines 207–211. -/
structure JobUpdate where
  numRows : Nat
  size : String
  hash : String
  lastHitID : Int
deriving DecidableEq, Repr

/-- Result of one `Export.Run`: rows written to the CSV writer (header
first), the event trace, the in-memory `Export` struct fields, the `error`
column update, whether the artifact file was removed, and the terminal job
update (present only on success). -/
structure ExpResult where
  rows : List (List String)
  trace : List Ev
  lastHitID : Int
  numRowsMem : Nat
  sizeMem : Option String
  hashMem : Option String
  errorCol : Option String
  fileDeleted : Bool
  finalUpdate : Option JobUpdate
  outcome : ExpOutcome
deriving DecidableEq, Repr

/-- `%.1f` of `size/1024/1024`, modelled by rounding to one decimal digit. -/
def fmtSizeMB (bytes : Nat) : String :=
  let tenths := (bytes * 10 + 524288) / 1048576
  String.mk (fmtNatL (tenths / 10)) ++ "." ++ String.mk (fmtNatL (tenths % 10))

/-- `Export.Run` (lines 92–230): header, loop, then either the fatal cleanup
path (record `error`, close, remove the file) or the post-loop finalization
(close the gzip stream, sync, stat for the size, close, hash, then persist
the terminal job update).  Each failing post-loop step logs and returns:
nothing is deleted and nothing is persisted. -/
def exportRun (sched : List Batch) (env : ExpEnv) (startFrom : Int) : ExpResult :=
  let st0 : ExpSt := ⟨startFrom, 0, [exportHeaderRow], none⟩
  let p := expLoop sched 0 st0
  let st := p.1
  match st.exportErr with
  | some m =>
    { rows := st.rows, trace := p.2, lastHitID := st.lastHitID, numRowsMem := st.numRows,
      sizeMem := none, hashMem := none, errorCol := some m, fileDeleted := true,
      finalUpdate := none, outcome := .fatal m }
  | none =>
    match env.gzCloseErr with
    | some _ =>
      { rows := st.rows, trace := p.2, lastHitID := st.lastHitID, numRowsMem := st.numRows,
        sizeMem := none, hashMem := none, errorCol := none, fileDeleted := false,
        finalUpdate := none, outcome := .degradedGzClose }
    | none =>
      match env.syncErr with
      | some _ =>
        { rows := st.rows, trace := p.2, lastHitID := st.lastHitID,
          numRowsMem := st.numRows, sizeMem := none, hashMem := none, errorCol := none,
          fileDeleted := false, finalUpdate := none, outcome := .degradedSync }
      | none =>
        let size := if env.statErr then "0" else fmtSizeMB env.statSize
        match env.closeErr with
        | some _ =>
          { rows := st.rows, trace := p.2, lastHitID := st.lastHitID,
            numRowsMem := st.numRows, sizeMem := some size, hashMem := none,
            errorCol := none, fileDeleted := false, finalUpdate := none,
            outcome := .degradedFileClose }
        | none =>
          match env.hashErr with
          | some _ =>
            { rows := st.rows, trace := p.2, lastHitID := st.lastHitID,
              numRowsMem := st.numRows, sizeMem := some size, hashMem := some "",
              errorCol := none, fileDeleted := false, finalUpdate := none,
              outcome := .degradedDigest }
          | none =>
            { rows := st.rows, trace := p.2, lastHitID := st.lastHitID,
              numRowsMem := st.numRows, sizeMem := some size, hashMem := some env.hashVal,
              errorCol := none, fileDeleted := false,
              finalUpdate := some ⟨st.numRows, size, env.hashVal, st.lastHitID⟩,
              outcome := .success }

/-- `Hits.List(ctx, 5000, after)` against a finite store.  Modelled from the
spec (§6 read contract): records strictly after the checkpoint, ascending,
at most 5000. -/
def listAfter (store : List Hit) (after : Int) : List Hit :=
  (store.filter (fun h => after < h.id)).take 5000

/-- The response sequence an error-free Record Store Adapter over a finite
store produces, starting from a checkpoint (fuel bounds the number of
batches; `store.length + 1` always suffices). -/
def storeSchedule : Nat → List Hit → Int → List Batch
  | 0, _, _ => []
  | fuel + 1, store, after =>
    let hs := listAfter store after
    match hs.getLast? with
    | none => [⟨[], none, none⟩]
    | some h => ⟨hs, none, none⟩ :: storeSchedule fuel store h.id

/-! ### The Import Engine (`Import`)

The input stream is embedded post-CSV-parse, as the header record plus the
data records (the `encoding/csv` reader is external; its per-line read errors
would enter the error group like any row fault and are not needed by the
claims).  `Memstore.SessionID()` is modelled from the spec ("a mechanism
`sessionID() -> fresh identity` to mint session identities"): a counter whose
minted identities are the successive positive values — in particular a minted
identity is never the `zint.Uint128` zero value `0`. -/
/-- The error group `errors.NewGroup(50)`: total count plus the retained
details (capacity 50). -/
structure ImpSt where
  sessions : List (String × Nat)
  nextSession : Nat
  ingested : List Hit
  n : Nat
  faultCount : Nat
  faultsKept : List RowErr
deriving DecidableEq, Repr

def errCapacity : Nat := 50

/-- `errs.Append(err)` for a non-nil error. -/
def errAppend (st : ImpSt) (e : RowErr) : ImpSt :=
  { st with
    faultCount := st.faultCount + 1
    faultsKept :=
      if st.faultsKept.length < errCapacity then st.faultsKept ++ [e] else st.faultsKept }

/-- Go map lookup `sessions[row.Session]`. -/
def lookupSession : List (String × Nat) → String → Option Nat
  | [], _ => none
  | (k, v) :: rest, s => if k = s then some v else lookupSession rest s

/-- One iteration of the import loop (lines 276–310): decode the row
(`ExportRow.Read`, then `ExportRow.Hit`), skipping the line on a fault;
then the session remap of lines 296–301 exactly as written: `s, ok :=
sessions[row.Session]`, on a miss the table gets a freshly minted identity,
but `hit.Session = s` assigns the looked-up `s` — which on a miss is still the
zero value, not the freshly minted identity — and the record is appended to
the ingest sink. -/
def impLine (siteID : Int) (st : ImpSt) (line : List String) : ImpSt :=
  match readRow line with
  | .error e => errAppend st e
  | .ok row =>
    match rowToHit siteID row with
    | (_, some e) => errAppend st e
    | (hit, none) =>
      match lookupSession st.sessions row.session with
      | some s =>
        { st with
          ingested := st.ingested ++ [{ hit with session := s }]
          n := st.n + 1 }
      | none =>
        let fresh := st.nextSession + 1
        { st with
          sessions := st.sessions ++ [(row.session, fresh)]
          nextSession := fresh
          ingested := st.ingested ++ [{ hit with session := 0 }]
          n := st.n + 1 }

/-- How an import run ended: `panicked` when the version-mismatch branch
evaluates `header[0][:1]` out of range, `fatal` for the
`importError`-notification path, `completed` otherwise. -/
inductive ImpOutcome where
  | panicked
  | fatal (msg : String)
  | completed (rows faults : Nat)
deriving DecidableEq, Repr

structure ImpResult where
  outcome : ImpOutcome
  ingested : List Hit
  nextSession : Nat
  faultCount : Nat
deriving DecidableEq, Repr

/-- `Import` (lines 241–333): the header gate
`len(header) == 0 || !strings.HasPrefix(header[0], ExportVersion)` whose error
branch formats `header[0][:1]` — an out-of-range slice (a panic) whenever the
first header cell is shorter than one byte, and an out-of-range index when
the header is empty; then the optional destructive wipe; then the row loop. -/
def importRun (header : List String) (lines : List (List String)) (rep : Bool)
    (wipeErr : Option String) (siteID : Int) (sess0 : Nat) : ImpResult :=
  if header.length = 0 ∨ strHasPfx ExportVersion (header.headD "") = false then
    match header with
    | [] => ⟨.panicked, [], sess0, 0⟩
    | c :: _ =>
      if c.length = 0 then ⟨.panicked, [], sess0, 0⟩
      else
        ⟨.fatal ("wrong version of CSV database: " ++ strTake1 c ++ " (expected: " ++
          ExportVersion ++ ")"), [], sess0, 0⟩
  else
    match (if rep then wipeErr else none) with
    | some m => ⟨.fatal m, [], sess0, 0⟩
    | none =>
      let st0 : ImpSt := ⟨[], sess0, [], 0, 0, []⟩
      let stF := lines.foldl (impLine siteID) st0
      ⟨.completed stF.n stF.faultCount, stF.ingested, stF.nextSession, stF.faultCount⟩

/-! ### Concrete fixtures -/
/-- A canonical timestamp. -/
def t0 : GoTime := ⟨2020, 6, 18, 14, 42, 0, 0⟩

/-- A record of the 3-record store of the concrete export scenario. -/
def storeHit (i : Int) : Hit :=
  ⟨i, 1, "/p", "", false, 0, 0, some i, false, "", none, "", [], "", t0⟩

def store3 : List Hit := [storeHit 1, storeHit 2, storeHit 3]

/-- A benign post-loop environment: every file operation succeeds. -/
def env0 : ExpEnv := ⟨none, none, false, 2048, none, none, "d0a3"⟩

/-- A well-formed import data line with session token `"7"`. -/
def rowA : List String :=
  ["/a", "", "false", "0", "7", "false", "", "", "", "", "", "2020-06-18T14:42:00Z"]

/-- A line with an empty Path column but a parseable non-empty Screen-size
column. -/
def rowEmptyPath : List String :=
  ["", "", "false", "0", "7", "false", "", "", "", "1280", "", "2020-06-18T14:42:00Z"]

/-- A line where every validated column is malformed and the Screen-size
column fails to parse. -/
def rowBadSize : ExportRow :=
  ⟨"", "", "xyz", "q", "7", "maybe", "", "zz", "", "12a0", "", "nope"⟩

/-- A valid record carrying a record identity, a canonical session identity
and a legacy numeric session identity. -/
def hRT : Hit :=
  ⟨7, 1, "/x", "T", true, 3, 9, some 5, true, "r", some "h", "b", [1920, 1080], "NL", t0⟩

/-- Scanner for the checkpoint-ordering property as C7 states it: every
`checkpoint b` event must be preceded by the `flush b` event of the batch it
covers.  The accumulator holds the batches flushed so far. -/
def ckptAfterFlushScan : List Nat → List Ev → Bool
  | _, [] => true
  | fl, Ev.flush b :: t => ckptAfterFlushScan (b :: fl) t
  | fl, Ev.checkpoint b :: t => fl.contains b && ckptAfterFlushScan fl t
  | fl, _ :: t => ckptAfterFlushScan fl t

/-- Scanner for the actual ordering: every `flush b` event is preceded by the
`checkpoint b` event of its batch (the checkpoint is advanced right after the
read, before the flush).  The accumulator holds the batches checkpointed so
far. -/
def ckptBeforeFlushScan : List Nat → List Ev → Bool
  | _, [] => true
  | seen, Ev.checkpoint b :: t => ckptBeforeFlushScan (b :: seen) t
  | seen, Ev.flush b :: t => seen.contains b && ckptBeforeFlushScan seen t
  | seen, _ :: t => ckptBeforeFlushScan seen t

/-- Whether an import outcome is the `importError` failure-notification path. -/
def ImpOutcome.isFatal : ImpOutcome → Bool
  | .fatal _ => true
  | _ => false

/-- Validity of an event record under the codec's constraints: a path that
survives the `Required` check, a referrer scheme absent or drawn from the
fixed enumeration, a canonical timestamp, and a bot code within the parsed
64-bit range. -/
def validHit (h : Hit) : Prop :=
  trimL h.path.data ≠ [] ∧ (∀ r, h.refScheme = some r → r ∈ refSchemes) ∧
    validTime h.createdAt ∧ -(2 ^ 63) ≤ h.bot ∧ h.bot < 2 ^ 63

/-- The identity-free projection a decode can reconstruct: the record with
the record identity and both session fields at their zero values. -/
def stripIdentity (h : Hit) : Hit := { h with id := 0, session := 0, oldSession := none }

/-! ### Lemmas about the decimal numeral codec -/
theorem digitChar_isDigit {n : Nat} (h : n < 10) : (digitChar n).isDigit = true := by
  interval_cases n <;> decide

theorem dval_digitChar {n : Nat} (h : n < 10) : dval (digitChar n) = n := by
  interval_cases n <;> decide

theorem digitChar_ne_dash {n : Nat} (h : n < 10) : digitChar n ≠ '-' := by
  interval_cases n <;> decide

theorem digitChar_ne_plus {n : Nat} (h : n < 10) : digitChar n ≠ '+' := by
  interval_cases n <;> decide

theorem digitChar_not_ws {n : Nat} (h : n < 10) : isWS (digitChar n) = false := by
  interval_cases n <;> decide

theorem fmtNatAux_all_digit (fuel n : Nat) :
    ∀ c ∈ fmtNatAux fuel n, c.isDigit = true := by
  induction fuel generalizing n with
  | zero => intro c hc; simp [fmtNatAux] at hc
  | succ fuel ih =>
    intro c hc
    by_cases h0 : n = 0
    · simp [fmtNatAux, h0] at hc
    · simp only [fmtNatAux, if_neg h0, List.mem_append, List.mem_singleton] at hc
      rcases hc with hc | hc
      · exact ih (n / 10) c hc
      · subst hc; exact digitChar_isDigit (Nat.mod_lt _ (by norm_num))

theorem fmtNatAux_ne_nil (fuel n : Nat) (hn : n ≠ 0) (hf : fuel ≠ 0) :
    fmtNatAux fuel n ≠ [] := by
  cases fuel with
  | zero => exact absurd rfl hf
  | succ fuel => simp [fmtNatAux, hn]

theorem fmtNatL_all_digit (n : Nat) : ∀ c ∈ fmtNatL n, c.isDigit = true := by
  intro c hc
  by_cases h0 : n = 0
  · simp [fmtNatL, h0] at hc; subst hc; decide
  · simp only [fmtNatL, if_neg h0] at hc
    exact fmtNatAux_all_digit n n c hc

theorem fmtNatL_ne_nil (n : Nat) : fmtNatL n ≠ [] := by
  by_cases h0 : n = 0
  · simp [fmtNatL, h0]
  · simp only [fmtNatL, if_neg h0]
    exact fmtNatAux_ne_nil n n h0 h0

theorem foldl_fmtNatAux (fuel : Nat) :
    ∀ n a, n ≤ fuel →
      (fmtNatAux fuel n).foldl (fun acc c => acc * 10 + dval c) a
        = a * 10 ^ (fmtNatAux fuel n).length + n := by
  induction fuel with
  | zero =>
    intro n a hn
    have : n = 0 := Nat.le_zero.mp hn
    subst this
    simp [fmtNatAux]
  | succ fuel ih =>
    intro n a hn
    by_cases h0 : n = 0
    · subst h0; simp [fmtNatAux]
    · have hdiv : n / 10 ≤ fuel := by
        have := Nat.div_lt_self (Nat.pos_of_ne_zero h0) (by norm_num : (1:Nat) < 10)
        omega
      simp only [fmtNatAux, if_neg h0, List.foldl_append, List.foldl_cons, List.foldl_nil,
        List.length_append, List.length_cons, List.length_nil]
      rw [ih (n / 10) a hdiv]
      rw [dval_digitChar (Nat.mod_lt _ (by norm_num))]
      have hmod := Nat.div_add_mod n 10
      rw [pow_succ]
      ring_nf
      omega

theorem parseNatL_fmtNatL (n : Nat) : parseNatL (fmtNatL n) = some n := by
  by_cases h0 : n = 0
  · subst h0; decide
  · have hne : fmtNatL n ≠ [] := fmtNatL_ne_nil n
    have hdig : (fmtNatL n).all Char.isDigit = true := by
      rw [List.all_eq_true]
      intro c hc
      exact fmtNatL_all_digit n c hc
    simp only [parseNatL, ne_eq, if_pos (And.intro hne hdig), Option.some.injEq]
    simp only [fmtNatL, if_neg h0]
    rw [foldl_fmtNatAux n n 0 (le_refl n)]
    omega

theorem parseIntRaw_fmtIntL (i : Int) : parseIntRaw (fmtIntL i) = some i := by
  by_cases hneg : i < 0
  · simp [fmtIntL, if_pos hneg, parseIntRaw, parseNatL_fmtNatL]
    rw [abs_of_neg hneg, neg_neg]
  · simp only [fmtIntL, if_neg hneg]
    obtain ⟨c, rest, hcr⟩ := List.exists_cons_of_ne_nil (fmtNatL_ne_nil i.natAbs)
    have hcd : c.isDigit = true := by
      apply fmtNatL_all_digit i.natAbs
      rw [hcr]; exact List.mem_cons_self _ _
    have hnd : c ≠ '-' := by
      intro h; rw [h] at hcd; exact absurd hcd (by decide)
    have hnp : c ≠ '+' := by
      intro h; rw [h] at hcd; exact absurd hcd (by decide)
    rw [hcr]
    simp only [parseIntRaw, if_neg hnd, if_neg hnp]
    rw [← hcr, parseNatL_fmtNatL]
    simp only [Option.some.injEq]
    omega

theorem trimL_eq_self {l : List Char} (h : ∀ c ∈ l, isWS c = false) : trimL l = l := by
  have h1 : l.dropWhile isWS = l := by
    cases l with
    | nil => rfl
    | cons c t =>
      rw [List.dropWhile_cons_of_neg]
      simp [h c (List.mem_cons_self _ _)]
  have h2 : l.reverse.dropWhile isWS = l.reverse := by
    cases hr : l.reverse with
    | nil => rfl
    | cons c t =>
      rw [List.dropWhile_cons_of_neg]
      have : c ∈ l := by
        rw [← List.mem_reverse, hr]; exact List.mem_cons_self _ _
      simp [h c this]
  simp [trimL, h1, h2]

theorem isDigit_not_ws {c : Char} (h : c.isDigit = true) : isWS c = false := by
  by_contra hw
  rw [Bool.not_eq_false] at hw
  simp only [isWS, decide_eq_true_eq] at hw
  rcases hw with h1 | h1 | h1 | h1 <;> (subst h1; exact absurd h (by decide))

theorem isDigit_ne_comma {c : Char} (h : c.isDigit = true) : c ≠ ',' := by
  intro he; rw [he] at h; exact absurd h (by decide)

theorem fmtIntL_not_ws (i : Int) : ∀ c ∈ fmtIntL i, isWS c = false := by
  intro c hc
  by_cases hneg : i < 0
  · simp only [fmtIntL, if_pos hneg, List.mem_cons] at hc
    rcases hc with hc | hc
    · subst hc; decide
    · exact isDigit_not_ws (fmtNatL_all_digit _ _ hc)
  · simp only [fmtIntL, if_neg hneg] at hc
    exact isDigit_not_ws (fmtNatL_all_digit _ _ hc)

theorem fmtIntL_not_comma (i : Int) : ∀ c ∈ fmtIntL i, c ≠ ',' := by
  intro c hc
  by_cases hneg : i < 0
  · simp only [fmtIntL, if_pos hneg, List.mem_cons] at hc
    rcases hc with hc | hc
    · subst hc; decide
    · exact isDigit_ne_comma (fmtNatL_all_digit _ _ hc)
  · simp only [fmtIntL, if_neg hneg] at hc
    exact isDigit_ne_comma (fmtNatL_all_digit _ _ hc)

theorem splitComma_ne_nil (l : List Char) : splitComma l ≠ [] := by
  cases l with
  | nil => simp [splitComma]
  | cons c rest =>
    by_cases hc : c = ','
    · simp [splitComma, hc]
    · simp only [splitComma, if_neg hc]
      cases splitComma rest <;> simp

theorem splitComma_no_comma {x : List Char} (hx : ∀ c ∈ x, c ≠ ',') :
    splitComma x = [x] := by
  induction x with
  | nil => rfl
  | cons c rest ih =>
    have hc : c ≠ ',' := hx c (List.mem_cons_self _ _)
    have hrest : ∀ c ∈ rest, c ≠ ',' := fun d hd => hx d (List.mem_cons_of_mem _ hd)
    simp only [splitComma, if_neg hc, ih hrest]

theorem splitComma_append {x : List Char} (hx : ∀ c ∈ x, c ≠ ',') (rest : List Char) :
    splitComma (x ++ ',' :: rest) = x :: splitComma rest := by
  induction x with
  | nil => simp [splitComma]
  | cons c t ih =>
    have hc : c ≠ ',' := hx c (List.mem_cons_self _ _)
    have ht : ∀ d ∈ t, d ≠ ',' := fun d hd => hx d (List.mem_cons_of_mem _ hd)
    simp only [List.cons_append, splitComma, if_neg hc]
    rw [show t.append (',' :: rest) = t ++ ',' :: rest from rfl, ih ht]

theorem splitComma_joinCommaL {xs : List (List Char)}
    (h : ∀ x ∈ xs, ∀ c ∈ x, c ≠ ',') (hne : xs ≠ []) :
    splitComma (joinCommaL xs) = xs := by
  induction xs with
  | nil => exact absurd rfl hne
  | cons x rest ih =>
    cases rest with
    | nil =>
      simp only [joinCommaL]
      exact splitComma_no_comma (h x (List.mem_cons_self _ _))
    | cons y ys =>
      have hx := h x (List.mem_cons_self _ _)
      have hrest : ∀ z ∈ y :: ys, ∀ c ∈ z, c ≠ ',' :=
        fun z hz => h z (List.mem_cons_of_mem _ hz)
      simp only [joinCommaL]
      rw [splitComma_append hx, ih hrest (by simp)]

theorem parse2_pad2 {n : Nat} (h : n < 100) :
    parse2 (digitChar (n / 10)) (digitChar (n % 10)) = some n := by
  have h1 : n / 10 < 10 := by omega
  have h2 : n % 10 < 10 := by omega
  simp only [parse2, digitChar_isDigit h1, digitChar_isDigit h2, and_self, if_pos,
    dval_digitChar h1, dval_digitChar h2, Option.some.injEq]
  omega

theorem parseTZ_fmtTZ {o : Int} (h : o.natAbs ≤ 1439) : parseTZ (fmtTZ o) = some o := by
  by_cases h0 : o = 0
  · subst h0; rfl
  · have hh : o.natAbs / 60 < 100 := by omega
    have hm : o.natAbs % 60 < 100 := by omega
    have h1 : o.natAbs / 60 * 60 + o.natAbs % 60 = o.natAbs := by omega
    have hd : o.natAbs / 60 ≤ 23 := by omega
    have hd2 : o.natAbs % 60 ≤ 59 := by omega
    simp only [fmtTZ, if_neg h0, pad2]
    by_cases hneg : o < 0
    · simp only [if_pos hneg]
      show parseTZ ['-', _, _, ':', _, _] = some o
      simp only [parseTZ, parse2_pad2 hh, parse2_pad2 hm]
      rw [h1]
      simp [hd, hd2, abs_of_neg hneg]
    · simp only [if_neg hneg]
      show parseTZ ['+', _, _, ':', _, _] = some o
      simp only [parseTZ, parse2_pad2 hh, parse2_pad2 hm]
      rw [h1]
      simp [hd, hd2, abs_of_nonneg (not_lt.mp hneg)]

theorem parseRFC3339_fmt {t : GoTime} (h : validTime t) :
    parseRFC3339 (fmtRFC3339 t) = some t := by
  obtain ⟨hy, hm1, hm2, hd1, hd2, hh, hmi, hse, htz⟩ := h
  have hyh : t.year / 100 < 100 := by omega
  have hyl : t.year % 100 < 100 := by omega
  have hmo : t.month < 100 := by omega
  have hda : t.day < 100 := by
    have : daysIn t.month t.year ≤ 31 := by
      unfold daysIn
      split
      · split <;> omega
      · split <;> omega
    omega
  have hho : t.hour < 100 := by omega
  have hmin : t.minute < 100 := by omega
  have hsec : t.second < 100 := by omega
  simp only [fmtRFC3339, pad4, pad2, List.cons_append, List.nil_append, List.append_assoc]
  show parseRFC3339 (_ :: _ :: _ :: _ :: '-' :: _ :: _ :: '-' :: _ :: _ :: 'T' :: _ :: _ ::
    ':' :: _ :: _ :: ':' :: _ :: _ :: fmtTZ t.tzMin) = some t
  simp only [parseRFC3339, parse2_pad2 hyh, parse2_pad2 hyl, parse2_pad2 hmo,
    parse2_pad2 hda, parse2_pad2 hho, parse2_pad2 hmin, parse2_pad2 hsec,
    parseTZ_fmtTZ htz, and_self, if_pos]
  have hvr : validRangesB ⟨t.year / 100 * 100 + t.year % 100, t.month, t.day, t.hour,
      t.minute, t.second, t.tzMin⟩ = true := by
    have : t.year / 100 * 100 + t.year % 100 = t.year := by omega
    rw [this]
    simp only [validRangesB, decide_eq_true_eq]
    exact ⟨hm1, hm2, hd1, hd2, hh, hmi, hse⟩
  rw [if_pos hvr]
  have : t.year / 100 * 100 + t.year % 100 = t.year := by omega
  simp [this]

/-! ### Claim theorems and their supporting lemmas -/
/-- C1: the claim is that any two rows sharing a session token get the same
remapped session identity.  The code (lines 296–301) stores the freshly
minted identity in the remap table but assigns the pre-lookup value `s` to
the record, so the first row of a token is ingested with the zero identity
while every later row of that token gets the minted identity: importing two
identical rows with session token `"7"` ingests records with session
identities `[0, 1]`, which are not pairwise equal. -/
theorem c1_session_remap_zero_on_first_use :
    (importRun exportHeaderRow [rowA, rowA] false none 1 0).ingested.map Hit.session
        = [0, 1] ∧
      ¬ List.Pairwise (fun a b => a = b)
        ((importRun exportHeaderRow [rowA, rowA] false none 1 0).ingested.map
          Hit.session) := by
  constructor
  · decide
  · decide

/-- C3: the claim is that a row with an empty Path column is always rejected
with a required-field fault.  But when the Screen-size column is non-empty
and parses, `ExportRow.Hit` returns `hit, err` with `err = nil`, discarding
the collected validation faults: the row with empty path and Screen-size
`"1280"` decodes successfully into a record whose path is empty. -/
theorem c3_empty_path_accepted_when_size_parses :
    decodeLine 1 rowEmptyPath =
      Except.ok ⟨0, 1, "", "", false, 0, 0, none, false, "", none, "", [1280], "", t0⟩ := by
  decide

/-- C6: exporting a store holding exactly the records with identities 1, 2, 3
from the beginning writes 4 CSV records (header plus 3 rows) and persists the
terminal job update with `numRows = 3`, `lastID = 3` and the digest, with no
error recorded. -/
theorem c6_concrete_export :
    (exportRun (storeSchedule 4 store3 0) env0 0).rows.length = 4 ∧
      (exportRun (storeSchedule 4 store3 0) env0 0).finalUpdate
        = some ⟨3, "0.0", "d0a3", 3⟩ ∧
      (exportRun (storeSchedule 4 store3 0) env0 0).errorCol = none ∧
      (exportRun (storeSchedule 4 store3 0) env0 0).outcome = ExpOutcome.success := by
  constructor
  · decide
  · constructor
    · decide
    · constructor
      · decide
      · decide

/-- C7 counterexample: on the concrete single-batch export the trace is
`read 0, checkpoint 0, writeRow 0 ×3, flush 0, read 1, checkpoint 1` — the
checkpoint of batch 0 is advanced before the flush of batch 0, so the
claimed property "a checkpoint is only ever advanced after the batch it
covers has been flushed" is false of the run. -/
theorem c7_checkpoint_counterexample :
    ckptAfterFlushScan [] (exportRun (storeSchedule 4 store3 0) env0 0).trace = false := by
  decide

/-- C5 counterexample: the header `[""]` does not start with the version tag,
so the claim demands the fatal failure-notification path with zero ingested
records; the run ingests zero records but panics (out-of-range slice in the
error branch) instead of taking the notification path. -/
theorem c5_empty_cell_counterexample :
    (importRun [""] [rowA] false none 1 0).ingested = [] ∧
      ImpOutcome.isFatal (importRun [""] [rowA] false none 1 0).outcome = false ∧
      (importRun [""] [rowA] false none 1 0).outcome = ImpOutcome.panicked := by
  constructor
  · decide
  · constructor
    · decide
    · decide

/-- C10: when the first header cell is the empty string the version-mismatch
branch is taken (`""` does not start with `"1"`), and formatting the error
message evaluates `header[0][:1]`, an out-of-range slice of the empty string:
the import panics instead of returning the version-mismatch error, whatever
the remaining header cells, the data rows and the flags are. -/
theorem c10_empty_header_cell_panics (rest : List String) (lines : List (List String))
    (rep : Bool) (wipeErr : Option String) (siteID : Int) (sess0 : Nat) :
    importRun ("" :: rest) lines rep wipeErr siteID sess0
      = ⟨ImpOutcome.panicked, [], sess0, 0⟩ := by
  unfold importRun
  have hc : strHasPfx ExportVersion (("" :: rest).headD "") = false := by
    simp only [List.headD_cons]
    decide
  rw [if_pos (Or.inr hc)]
  simp

/-- The export loop ends with `exportErr` set to the read error as soon as a
reached batch read fails — also when that read returns zero records, because
`exportErr` is assigned before the empty-batch break. -/
theorem expLoop_fatal (b : Batch) (rest : List Batch) (m : String) (hb : b.err = some m) :
    ∀ good : List Batch, (∀ x ∈ good, x.err = none ∧ x.flushErr = none ∧ x.hits ≠ []) →
      ∀ i st, (expLoop (good ++ b :: rest) i st).1.exportErr = some m := by
  intro good
  induction good with
  | nil =>
    intro _ i st
    simp only [List.nil_append]
    unfold expLoop
    by_cases he : b.hits.isEmpty
    · simp [he, hb]
    · simp [he, hb]
  | cons g gs ih =>
    intro hg i st
    obtain ⟨hge, hgf, hgh⟩ := hg g (List.mem_cons_self _ _)
    have hgeb : g.hits.isEmpty = false := by
      cases hg3 : g.hits with
      | nil => exact absurd hg3 hgh
      | cons a l => rfl
    simp only [List.cons_append]
    unfold expLoop
    simp only [hgeb, Bool.false_eq_true, if_false, hge, hgf]
    exact ih (fun x hx => hg x (List.mem_cons_of_mem _ hx)) (i + 1) _

/-- C2: when a reached batch read from the Record Store Adapter fails — the
batches before it being error-free and non-empty — the run takes the fatal
path: the message is recorded on the job row's `error` column, the partial
artifact is deleted, no terminal update is persisted and the in-memory size
and hash are never set.  The failing batch's records are unconstrained, so
the statement covers a failing read that also returns zero records. -/
theorem c2_read_error_fatal_cleanup (good : List Batch) (b : Batch) (rest : List Batch)
    (env : ExpEnv) (startFrom : Int) (m : String)
    (hg : ∀ x ∈ good, x.err = none ∧ x.flushErr = none ∧ x.hits ≠ [])
    (hb : b.err = some m) :
    (exportRun (good ++ b :: rest) env startFrom).errorCol = some m ∧
      (exportRun (good ++ b :: rest) env startFrom).fileDeleted = true ∧
      (exportRun (good ++ b :: rest) env startFrom).finalUpdate = none ∧
      (exportRun (good ++ b :: rest) env startFrom).sizeMem = none ∧
      (exportRun (good ++ b :: rest) env startFrom).hashMem = none ∧
      (exportRun (good ++ b :: rest) env startFrom).outcome = ExpOutcome.fatal m := by
  have h := expLoop_fatal b rest m hb good hg 0 ⟨startFrom, 0, [exportHeaderRow], none⟩
  simp [exportRun, h]

/-- Witness for C2: a first read that fails with `"boom"` while returning
zero records still aborts the run with the full fatal cleanup. -/
theorem c2_read_error_fatal_cleanup_witness :
    (exportRun [⟨[], some "boom", none⟩] env0 0).errorCol = some "boom" ∧
      (exportRun [⟨[], some "boom", none⟩] env0 0).fileDeleted = true ∧
      (exportRun [⟨[], some "boom", none⟩] env0 0).finalUpdate = none ∧
      (exportRun [⟨[], some "boom", none⟩] env0 0).sizeMem = none ∧
      (exportRun [⟨[], some "boom", none⟩] env0 0).hashMem = none ∧
      (exportRun [⟨[], some "boom", none⟩] env0 0).outcome = ExpOutcome.fatal "boom" :=
  c2_read_error_fatal_cleanup [] ⟨[], some "boom", none⟩ [] env0 0 "boom"
    (by intro x hx; exact absurd hx (List.not_mem_nil x)) rfl

/-- C8: when the data loop finishes without error but the compressed-stream
close, the file sync or the digest step fails, the run returns early: the
artifact is not deleted, no terminal update (finishedAt/numRows/size/hash) is
persisted onto the job row, and no error is recorded on it either. -/
theorem c8_postloop_failure_no_delete_no_persist (sched : List Batch) (env : ExpEnv)
    (startFrom : Int)
    (hloop : (expLoop sched 0 ⟨startFrom, 0, [exportHeaderRow], none⟩).1.exportErr = none)
    (hfail : env.gzCloseErr.isSome ∨ env.syncErr.isSome ∨ env.hashErr.isSome) :
    (exportRun sched env startFrom).fileDeleted = false ∧
      (exportRun sched env startFrom).finalUpdate = none ∧
      (exportRun sched env startFrom).errorCol = none := by
  rcases hgz : env.gzCloseErr with _ | mg
  · rcases hsy : env.syncErr with _ | ms
    · rcases hcl : env.closeErr with _ | mc
      · rcases hha : env.hashErr with _ | mh
        · exfalso
          rcases hfail with hx | hx | hx <;>
            simp [hgz, hsy, hha] at hx
        · simp [exportRun, hloop, hgz, hsy, hcl, hha]
      · simp [exportRun, hloop, hgz, hsy, hcl]
    · simp [exportRun, hloop, hgz, hsy]
  · simp [exportRun, hloop, hgz]

/-- Witness for C8: an empty schedule (loop succeeds with zero rows) and a
failing sync leave the artifact in place with nothing persisted. -/
theorem c8_postloop_failure_witness :
    (expLoop [] 0 ⟨0, 0, [exportHeaderRow], none⟩).1.exportErr = none ∧
      ((exportRun [] ⟨none, some "sync fail", false, 0, none, none, "h"⟩ 0).fileDeleted
          = false ∧
        (exportRun [] ⟨none, some "sync fail", false, 0, none, none, "h"⟩ 0).finalUpdate
          = none ∧
        (exportRun [] ⟨none, some "sync fail", false, 0, none, none, "h"⟩ 0).errorCol
          = none) :=
  ⟨rfl, c8_postloop_failure_no_delete_no_persist []
    ⟨none, some "sync fail", false, 0, none, none, "h"⟩ 0 rfl (Or.inr (Or.inl rfl))⟩

theorem scanWrites (i : Nat) (l : List Hit) (seen : List Nat) (t : List Ev) :
    ckptBeforeFlushScan seen ((l.map fun _ => Ev.writeRow i) ++ t)
      = ckptBeforeFlushScan seen t := by
  induction l with
  | nil => rfl
  | cons a l ih =>
    simp only [List.map_cons, List.cons_append, ckptBeforeFlushScan]
    exact ih

/-- In every loop trace each `flush b` is preceded by `checkpoint b`: the
checkpoint assignment happens right after the read, before the writes and the
flush of the batch. -/
theorem expLoop_ckptBeforeFlush (sched : List Batch) :
    ∀ (i : Nat) (st : ExpSt) (seen : List Nat),
      ckptBeforeFlushScan seen (expLoop sched i st).2 = true := by
  induction sched with
  | nil => intro i st seen; rfl
  | cons b rest ih =>
    intro i st seen
    unfold expLoop
    by_cases he : b.hits.isEmpty
    · simp [he, ckptBeforeFlushScan]
    · cases hbe : b.err with
      | some m => simp [he, hbe, ckptBeforeFlushScan]
      | none =>
        cases hbf : b.flushErr with
        | some m =>
          simp only [he, Bool.false_eq_true, if_false, hbe, hbf, ckptBeforeFlushScan]
          rw [scanWrites]
          simp [ckptBeforeFlushScan]
        | none =>
          simp only [he, Bool.false_eq_true, if_false, hbe, hbf, ckptBeforeFlushScan]
          rw [scanWrites]
          simp only [ckptBeforeFlushScan, List.contains_cons, beq_self_eq_true, Bool.true_or,
            Bool.true_and]
          exact ih (i + 1) _ (i :: seen)

/-- Every branch of `Export.Run` reports the trace produced by the loop. -/
theorem exportRun_trace (sched : List Batch) (env : ExpEnv) (startFrom : Int) :
    (exportRun sched env startFrom).trace
      = (expLoop sched 0 ⟨startFrom, 0, [exportHeaderRow], none⟩).2 := by
  simp only [exportRun]
  split
  · rfl
  · split
    · rfl
    · split
      · rfl
      · split
        · rfl
        · split
          · rfl
          · rfl

/-- C7 amended: in every export run the in-memory checkpoint of a batch is
advanced immediately after that batch is read — before its rows are written
and flushed — so in every trace the flush of a batch is preceded by that
batch's checkpoint assignment; a flush failure then aborts the run, which
never persists the checkpoint (see the fatal path of C2). -/
theorem c7_checkpoint_before_flush (sched : List Batch) (env : ExpEnv) (startFrom : Int) :
    ckptBeforeFlushScan [] (exportRun sched env startFrom).trace = true := by
  rw [exportRun_trace]
  exact expLoop_ckptBeforeFlush sched 0 _ []

/-- C5 amended: an import stream whose first header cell is non-empty and
does not start with the version tag ingests zero records and takes the
fatal failure-notification path, regardless of the remaining rows (when the
first cell is empty the run instead panics — see C10). -/
theorem c5_nonempty_mismatch_fatal (c0 : String) (rest : List String)
    (lines : List (List String)) (rep : Bool) (wipeErr : Option String) (siteID : Int)
    (sess0 : Nat) (hne : c0.length ≠ 0) (hpf : strHasPfx ExportVersion c0 = false) :
    importRun (c0 :: rest) lines rep wipeErr siteID sess0
      = ⟨ImpOutcome.fatal ("wrong version of CSV database: " ++ strTake1 c0 ++
          " (expected: " ++ ExportVersion ++ ")"), [], sess0, 0⟩ := by
  unfold importRun
  have hc : strHasPfx ExportVersion ((c0 :: rest).headD "") = false := by
    simpa using hpf
  rw [if_pos (Or.inr hc)]
  simp [hne]

/-- Witness for the amended C5: a `"2Path"` header cell aborts with the
version-mismatch notification and zero ingested records. -/
theorem c5_nonempty_mismatch_fatal_witness :
    ("2Path" : String).length ≠ 0 ∧ strHasPfx ExportVersion "2Path" = false ∧
      importRun ["2Path"] [rowA] false none 1 0
        = ⟨ImpOutcome.fatal "wrong version of CSV database: 2 (expected: 1)", [], 0, 0⟩ :=
  ⟨by decide, by decide,
    c5_nonempty_mismatch_fatal "2Path" [] [rowA] false none 1 0 (by decide) (by decide)⟩

/-- C9: whenever the Screen-size column fails to parse, `ExportRow.Hit`
returns exactly that parse failure — the `sizeParse` fault carrying the
offending chunk — and not the keyed validation faults collected for the
path/boolean/bot/enumeration/timestamp columns, whatever the other columns
contain. -/
theorem c9_size_parse_failure_short_circuits (siteID : Int) (row : ExportRow) (m : String)
    (h : parseSizes row.size = Except.error m) :
    (rowToHit siteID row).2 = some (RowErr.sizeParse m) := by
  have hne : row.size ≠ "" := by
    intro he
    rw [he] at h
    have hok : parseSizes "" = Except.ok [] := rfl
    rw [hok] at h
    exact Except.noConfusion h
  simp only [rowToHit]
  rw [if_pos hne, h]

/-- Witness for C9: a row whose every validated column is malformed and whose
Screen-size column is `"12a0"` is rejected with the size parse failure
alone. -/
theorem c9_size_parse_failure_witness :
    parseSizes rowBadSize.size = Except.error "12a0" ∧
      (rowToHit 1 rowBadSize).2 = some (RowErr.sizeParse "12a0") :=
  ⟨by decide, c9_size_parse_failure_short_circuits 1 rowBadSize "12a0" (by decide)⟩

theorem data_mk (l : List Char) : (String.mk l).data = l := rfl

theorem vRequired_pass (v : VState) (key s : String) (h : trimL s.data ≠ []) :
    vRequired v key s = v := by
  simp [vRequired, h]

theorem vBoolean_fmtBool (v : VState) (key : String) (b : Bool) :
    vBoolean v key (fmtBool b) = (v, b) := by
  cases b <;> rfl

theorem vInteger_fmtIntL (v : VState) (key : String) (i : Int)
    (h1 : -(2 ^ 63) ≤ i) (h2 : i < 2 ^ 63) :
    vInteger v key (String.mk (fmtIntL i)) = (v, i) := by
  unfold vInteger parseIntS
  rw [data_mk, parseIntRaw_fmtIntL]
  simp only [if_pos (And.intro h1 h2)]

theorem vDate_fmtRFC3339 (v : VState) (key : String) (t : GoTime) (h : validTime t) :
    vDate v key (String.mk (fmtRFC3339 t)) = (v, t) := by
  unfold vDate
  rw [data_mk, parseRFC3339_fmt h]

theorem vInclude_pass (v : VState) (key r : String) (opts : List String) (h : r ∈ opts) :
    vInclude v key r opts = v := by
  simp [vInclude, h]

theorem fmtIntL_ne_nil (i : Int) : fmtIntL i ≠ [] := by
  unfold fmtIntL
  split
  · simp
  · exact fmtNatL_ne_nil _

theorem mem_joinCommaL {c : Char} {xs : List (List Char)} (hc : c ∈ joinCommaL xs) :
    (∃ x ∈ xs, c ∈ x) ∨ c = ',' := by
  induction xs with
  | nil => simp [joinCommaL] at hc
  | cons x rest ih =>
    cases rest with
    | nil =>
      left
      exact ⟨x, by simp, by simpa [joinCommaL] using hc⟩
    | cons y ys =>
      simp only [joinCommaL, List.mem_append, List.mem_cons] at hc
      rcases hc with hx | hcm | hrest
      · left; exact ⟨x, by simp, hx⟩
      · right; exact hcm
      · rcases ih hrest with ⟨z, hz, hcz⟩ | hcm
        · left; exact ⟨z, List.mem_cons_of_mem _ hz, hcz⟩
        · right; exact hcm

theorem joinCommaL_ne_nil {x : List Char} {xs : List (List Char)} (hx : x ≠ []) :
    joinCommaL (x :: xs) ≠ [] := by
  cases xs with
  | nil => simpa [joinCommaL] using hx
  | cons y ys => simp [joinCommaL]

theorem parseChunks_fmt (l : List Int) :
    parseChunks (l.map fmtIntL) = Except.ok l := by
  induction l with
  | nil => rfl
  | cons n ns ih =>
    have h1 : trimL (fmtIntL n) = fmtIntL n := trimL_eq_self (fmtIntL_not_ws n)
    simp [parseChunks, h1, parseIntRaw_fmtIntL, ih, Except.map]

/-- Round trip of the screen-size column: splitting and parsing the joined
encoding recovers the list, for every list (the empty list encodes to the
empty string, which the decoder maps back to the empty list). -/
theorem parseSizes_joinSizes (l : List Int) : parseSizes (joinSizes l) = Except.ok l := by
  cases l with
  | nil => rfl
  | cons n ns =>
    have hchunks : ∀ x ∈ (n :: ns).map fmtIntL, ∀ c ∈ x, c ≠ ',' := by
      intro x hx c hc
      simp only [List.mem_map] at hx
      obtain ⟨i, _, rfl⟩ := hx
      exact fmtIntL_not_comma i c hc
    have hne : (n :: ns).map fmtIntL ≠ [] := by simp
    have hnws : ∀ c ∈ joinCommaL ((n :: ns).map fmtIntL), isWS c = false := by
      intro c hc
      rcases mem_joinCommaL hc with ⟨x, hx, hcx⟩ | rfl
      · simp only [List.mem_map] at hx
        obtain ⟨i, _, rfl⟩ := hx
        exact fmtIntL_not_ws i c hcx
      · decide
    have hjne : joinCommaL ((n :: ns).map fmtIntL) ≠ [] := by
      rw [List.map_cons]
      exact joinCommaL_ne_nil (fmtIntL_ne_nil n)
    unfold parseSizes joinSizes
    rw [data_mk, trimL_eq_self hnws, if_neg hjne, splitComma_joinCommaL hchunks hne,
      parseChunks_fmt]

theorem joinSizes_ne_empty {l : List Int} (h : l ≠ []) : joinSizes l ≠ "" := by
  cases l with
  | nil => exact absurd rfl h
  | cons n ns =>
    intro he
    have hd := congrArg String.data he
    rw [data_mk] at hd
    have hjne : joinCommaL ((n :: ns).map fmtIntL) ≠ [] := by
      rw [List.map_cons]
      exact joinCommaL_ne_nil (fmtIntL_ne_nil n)
    exact hjne (by simpa [joinSizes] using hd)

/-- C4 counterexample: the record `hRT` is valid under the codec's
constraints (non-empty path, enumerated referrer scheme, canonical boolean
and timestamp forms), yet decoding its encoding does not return an equal
record — the record identity and both session fields are not transported
(the decoder leaves them at their zero values; sessions are remapped during
the import run instead). -/
theorem c4_roundtrip_counterexample :
    validHit hRT ∧ decodeLine 1 (encodeHit hRT) ≠ Except.ok hRT := by
  constructor
  · refine ⟨by decide, ?_, by decide, by decide, by decide⟩
    intro r hr
    have h' : some "h" = some r := hr
    cases Option.some.inj h'
    decide
  · decide

/-- `ExportRow.Hit` on the encoding of a valid record: all validations pass
without appending a fault, and the resulting record agrees with the original
on every codec-transported field; the Session column (whatever its textual
form) is not read back, and the identity/session fields stay at their zero
values. -/
theorem rowToHit_encoded (h : Hit) (hp : trimL h.path.data ≠ [])
    (hrs : ∀ r, h.refScheme = some r → r ∈ refSchemes) (ht : validTime h.createdAt)
    (hb1 : -(2 ^ 63) ≤ h.bot) (hb2 : h.bot < 2 ^ 63) (sessionStr : String) :
    rowToHit h.site
      ⟨h.path, h.title, fmtBool h.event, String.mk (fmtIntL h.bot), sessionStr,
        fmtBool h.firstVisit, h.ref,
        (match h.refScheme with | some r => r | none => ""),
        h.browser, joinSizes h.size, h.location, String.mk (fmtRFC3339 h.createdAt)⟩
      = (stripIdentity h, none) := by
  unfold rowToHit
  simp only [vRequired_pass _ _ _ hp, vBoolean_fmtBool, vInteger_fmtIntL _ _ _ hb1 hb2,
    vDate_fmtRFC3339 _ _ _ ht]
  cases href : h.refScheme with
  | none =>
    simp only [href]
    by_cases hsz : h.size = []
    · rw [hsz]
      simp [stripIdentity, joinSizes, joinCommaL, href, hsz]
    · rw [if_pos (joinSizes_ne_empty hsz), parseSizes_joinSizes]
      simp [stripIdentity, href]
  | some r =>
    have hrmem : r ∈ refSchemes := hrs r href
    have hrne : r ≠ "" := by
      intro he
      rw [he] at hrmem
      exact absurd hrmem (by decide)
    simp only [href, if_pos hrne, vInclude_pass _ _ _ _ hrmem]
    by_cases hsz : h.size = []
    · rw [hsz]
      simp [stripIdentity, joinSizes, joinCommaL, href, hsz]
    · rw [if_pos (joinSizes_ne_empty hsz), parseSizes_joinSizes]
      simp [stripIdentity, href]

/-- C4 amended: for every record valid under the codec's constraints,
encoding and then decoding yields a record equal to the original in every
codec-transported field; the record identity and the session fields (legacy
numeric or canonical) are not transported — the decoder leaves them at their
zero values and sessions are remapped at import. -/
theorem c4_roundtrip_modulo_identity (h : Hit) (hv : validHit h) :
    decodeLine h.site (encodeHit h) = Except.ok (stripIdentity h) := by
  obtain ⟨hp, hrs, ht, hb1, hb2⟩ := hv
  have hr := rowToHit_encoded h hp hrs ht hb1 hb2
    (match h.oldSession with
      | some o => String.mk (fmtIntL o)
      | none => uuidStr h.session)
  simp only [decodeLine, encodeHit, readRow]
  rw [hr]

/-- Witness for the amended C4: the valid record `hRT` decodes back to its
identity-free projection. -/
theorem c4_roundtrip_modulo_identity_witness :
    validHit hRT ∧ decodeLine hRT.site (encodeHit hRT) = Except.ok (stripIdentity hRT) := by
  have hv : validHit hRT := by
    refine ⟨by decide, ?_, by decide, by decide, by decide⟩
    intro r hr
    have h' : some "h" = some r := hr
    cases Option.some.inj h'
    decide
  exact ⟨hv, c4_roundtrip_modulo_identity hRT hv⟩

end GC
